import Mathlib

/-!
Verification of `src/backend/utils.rs`: the relative-time formatter
`humanize_time` and the base64 image decoder `b64_to_img_data`.

Timestamps (`chrono::DateTime<Utc>`) are embedded as integer nanoseconds
since the Unix epoch.  `chrono::Duration` values are likewise integer
nanosecond counts.  The local time zone (`chrono::Local`) is embedded as an
arbitrary function `off : Int → Int` giving the UTC offset in seconds at a
given UTC instant, so every fixed-offset zone and every DST rule is an
instance.  The source reads the system clock twice (`Utc::now()` and then
`Local::now()`), so the embedding of `humanize_time` takes both clock
readings as explicit parameters `now1` and `now2`.
-/

/-- Nanoseconds per second, minute, day, matching `chrono` constants. -/
def nsPerSecond : Int := 1000000000

/-- Nanoseconds per minute. -/
def nsPerMinute : Int := 60000000000

/-- Nanoseconds per hour. -/
def nsPerHour : Int := 3600000000000

/-- Nanoseconds per day. -/
def nsPerDay : Int := 86400000000000

/-- Embedding of `chrono::Duration::num_seconds` on a duration of `d`
nanoseconds: whole seconds, truncated toward zero (chrono stores
`(secs, nanos)` with `0 ≤ nanos < 10^9` and adds one to negative `secs`
when `nanos > 0`, which is exactly truncation toward zero). -/
def numSeconds (d : Int) : Int := d.tdiv nsPerSecond

/-- Embedding of `chrono::Duration::num_minutes`: `num_seconds() / 60`
with Rust `i64` division (truncation toward zero). -/
def numMinutes (d : Int) : Int := (numSeconds d).tdiv 60

/-- Embedding of `chrono::Duration::num_days`: `num_seconds() / 86400`
with Rust `i64` division (truncation toward zero). -/
def numDays (d : Int) : Int := (numSeconds d).tdiv 86400

/-- Local wall-clock nanoseconds of UTC instant `t` under offset rule
`off` (seconds of UTC offset as a function of the instant), as used by
`DateTime::<Local>::from` and `Local::now()`. -/
def localWallNanos (off : Int → Int) (t : Int) : Int := t + off t * nsPerSecond

/-- Embedding of `NaiveDateTime::date` on a local wall-clock value: the
calendar day number (days since 1970-01-01 in that wall clock), i.e. the
floor of `wall / nsPerDay`.  `NaiveDate` equality is day-number equality. -/
def dateNaive (wall : Int) : Int := wall / nsPerDay

/-- Hour of day (0–23) of a wall-clock nanosecond value. -/
def hourOfDay (wall : Int) : Nat := ((wall % nsPerDay) / nsPerHour).toNat

/-- Minute of hour (0–59) of a wall-clock nanosecond value. -/
def minuteOfHour (wall : Int) : Nat := ((wall % nsPerDay) / nsPerMinute).toNat % 60

/-- Two-digit zero padding, as in chrono's `%I`, `%M`, `%m`, `%d`. -/
def pad2 (n : Nat) : String := if n < 10 then "0" ++ toString n else toString n

/-- Twelve-hour clock hour for `%I`: 0 → 12, 13 → 1, 12 → 12. -/
def hour12 (h : Nat) : Nat := if h % 12 = 0 then 12 else h % 12

/-- Embedding of chrono's `format("%I:%M %p")` on a local wall-clock
value: zero-padded 12-hour hour, zero-padded minute, uppercase AM/PM. -/
def format12Hour (wall : Int) : String :=
  pad2 (hour12 (hourOfDay wall)) ++ ":" ++ pad2 (minuteOfHour wall) ++ " " ++
    (if hourOfDay wall < 12 then "AM" else "PM")

/-- Embedding of chrono's `format("%A")`: the full English weekday name of
a calendar day number (day 0 = 1970-01-01 was a Thursday). -/
def weekdayName (day : Int) : String :=
  match ((day + 4) % 7).toNat with
  | 0 => "Sunday"
  | 1 => "Monday"
  | 2 => "Tuesday"
  | 3 => "Wednesday"
  | 4 => "Thursday"
  | 5 => "Friday"
  | _ => "Saturday"

/-- Proleptic-Gregorian civil date `(year, month, day-of-month)` of a day
number (days since 1970-01-01), the standard era-based conversion also
used by chrono's calendar arithmetic. -/
def civilFromDays (day : Int) : Int × Nat × Nat :=
  let z := day + 719468
  let era := z / 146097
  let doe := (z - era * 146097).toNat
  let yoe := (doe - doe / 1460 + doe / 36524 - doe / 146096) / 365
  let doy := doe - (365 * yoe + yoe / 4 - yoe / 100)
  let mp := (5 * doy + 2) / 153
  let dom := doy - (153 * mp + 2) / 5 + 1
  let m := if mp < 10 then mp + 3 else mp - 9
  let y := era * 400 + (yoe : Int) + (if m ≤ 2 then 1 else 0)
  (y, m, dom)

/-- Four-digit zero padding for chrono's `%Y` on common-era years. -/
def pad4 (n : Nat) : String :=
  if n < 10 then "000" ++ toString n
  else if n < 100 then "00" ++ toString n
  else if n < 1000 then "0" ++ toString n
  else toString n

/-- Embedding of chrono's `format("%Y-%m-%d")` on a calendar day number. -/
def isoDateString (day : Int) : String :=
  let c := civilFromDays day
  (if c.1 < 0 then "-" ++ pad4 (-c.1).toNat else pad4 c.1.toNat) ++
    "-" ++ pad2 c.2.1 ++ "-" ++ pad2 c.2.2

/-- Embedding of `humanize_time` from `src/backend/utils.rs`.  The source
reads the clock twice: `now1` is the value of `Utc::now()` at line 27 and
`now2` the instant read by `Local::now()` at line 39; `off` is the local
time zone's offset rule.  The nested conditionals transcribe the source's
early returns in order:
`diff.num_minutes() < 1`, `diff.num_minutes() < 60`, local same-date,
local yesterday, `diff.num_days() < 7`, else ISO date. -/
def humanize_time (off : Int → Int) (timestamp now1 now2 : Int) : String :=
  if numMinutes (now1 - timestamp) < 1 then "Just now"
  else if numMinutes (now1 - timestamp) < 60 then
    toString (numMinutes (now1 - timestamp)) ++ " min ago"
  else if dateNaive (localWallNanos off timestamp) = dateNaive (localWallNanos off now2) then
    format12Hour (localWallNanos off timestamp)
  else if dateNaive (localWallNanos off timestamp) = dateNaive (localWallNanos off now2) - 1 then
    "Yesterday"
  else if numDays (now1 - timestamp) < 7 then
    weekdayName (dateNaive (localWallNanos off timestamp))
  else
    isoDateString (dateNaive (localWallNanos off timestamp))

/-- Index of a character in the standard base64 alphabet used by
`base64::engine::general_purpose::STANDARD` (RFC 4648: `A`–`Z`, `a`–`z`,
`0`–`9`, `+`, `/`); `none` for any other character, including `-` and `_`
of the URL-safe alphabet and the padding character `=`. -/
def b64Index (c : Char) : Option Nat :=
  if 'A' ≤ c ∧ c ≤ 'Z' then some (c.toNat - 65)
  else if 'a' ≤ c ∧ c ≤ 'z' then some (c.toNat - 97 + 26)
  else if '0' ≤ c ∧ c ≤ '9' then some (c.toNat - 48 + 52)
  else if c = '+' then some 62
  else if c = '/' then some 63
  else none

/-- The three bytes encoded by a full group of four base64 sextets. -/
def chunkBytes (i1 i2 i3 i4 : Nat) : List Nat :=
  [i1 * 4 + i2 / 16, i2 % 16 * 16 + i3 / 4, i3 % 4 * 64 + i4]

/-- Decoding of the final four-character group under the `STANDARD`
engine: canonical padding is required (`=` only in the last one or two
positions) and, because `decode_allow_trailing_bits` is false, the unused
low bits of the last symbol must be zero. -/
def decodeLastChunk (a b c d : Char) : Option (List Nat) :=
  match b64Index a, b64Index b with
  | some i1, some i2 =>
    if d = '=' then
      if c = '=' then
        if i2 % 16 = 0 then some [i1 * 4 + i2 / 16] else none
      else
        match b64Index c with
        | some i3 =>
          if i3 % 4 = 0 then some [i1 * 4 + i2 / 16, i2 % 16 * 16 + i3 / 4] else none
        | none => none
    else
      match b64Index c, b64Index d with
      | some i3, some i4 => some (chunkBytes i1 i2 i3 i4)
      | _, _ => none
  | _, _ => none

/-- Group-wise base64 decoding: the input must split into groups of four
characters, padding may occur only in the final group, and a trailing
group shorter than four characters (input length not a multiple of 4) is
an error, as under the `STANDARD` engine's required canonical padding. -/
def decodeChunks : List Char → Option (List Nat)
  | [] => some []
  | a :: b :: c :: d :: rest =>
    if rest.isEmpty then decodeLastChunk a b c d
    else
      match b64Index a, b64Index b, b64Index c, b64Index d, decodeChunks rest with
      | some i1, some i2, some i3, some i4, some tail => some (chunkBytes i1 i2 i3 i4 ++ tail)
      | _, _, _, _, _ => none
  | _ => none

/-- Embedding of `base64::engine::general_purpose::STANDARD.decode` on a
string, giving `none` exactly where the engine returns a `DecodeError`.
A non-ASCII character is never a valid symbol in either view, so
decoding at the `Char` level accepts and rejects the same strings as the
byte-level engine and produces the same bytes on success. -/
def STANDARD.decode (content : String) : Option (List Nat) :=
  decodeChunks content.data

/-- Membership in the standard (non-URL-safe) base64 alphabet of
RFC 4648, stated from the specification's description of the alphabet. -/
def isStdB64Char (c : Char) : Bool :=
  decide (('A' ≤ c ∧ c ≤ 'Z') ∨ ('a' ≤ c ∧ c ≤ 'z') ∨ ('0' ≤ c ∧ c ≤ '9') ∨ c = '+' ∨ c = '/')

/-- Validity of a final base64 group under the specification's reading:
two alphabet symbols followed by `==`, three symbols followed by `=`, or
four symbols, with zero unused trailing bits in the padded cases. -/
def validLastChunk (a b c d : Char) : Bool :=
  isStdB64Char a && isStdB64Char b &&
    (if d = '=' then
      if c = '=' then (b64Index b).getD 0 % 16 == 0
      else isStdB64Char c && (b64Index c).getD 0 % 4 == 0
     else isStdB64Char c && isStdB64Char d)

/-- Specification-side validity of a string under the standard base64
alphabet with `=` padding: groups of four, every non-padding character
from the standard alphabet, padding only at the very end. -/
def validStdBase64 : List Char → Bool
  | [] => true
  | a :: b :: c :: d :: rest =>
    if rest.isEmpty then validLastChunk a b c d
    else isStdB64Char a && isStdB64Char b && isStdB64Char c && isStdB64Char d &&
      validStdBase64 rest
  | _ => false

/-- Model of the RGBA8 buffer produced by `DynamicImage::to_rgba8`: the
`image` crate's `ImageBuffer` maintains that its raw container holds
exactly `width * height * 4` samples, and `into_raw` returns that
container, so the invariant is carried structurally. -/
structure RgbaImage where
  width : Nat
  height : Nat
  data : List Nat
  data_length : data.length = width * height * 4

/-- Model of `arboard::ImageData`: dimensions plus an owned RGBA8 byte
sequence (the `Cow::Owned` branch of the source). -/
structure ImageData where
  width : Nat
  height : Nat
  bytes : List Nat
deriving DecidableEq

/-- Outcome of `b64_to_img_data`: a returned value, or one of the two
`unwrap` panics.  A panic aborts the process, so the `panicDecode` and
`panicImage` outcomes return nothing to the caller; `panicDecode` is the
`unwrap` of a base64 `DecodeError` at line 69 and `panicImage` the
`unwrap` of an `image` crate error at line 70. -/
inductive B64Result where
  | ok (d : ImageData)
  | panicDecode
  | panicImage
deriving DecidableEq

/-- Embedding of `b64_to_img_data` from `src/backend/utils.rs`.  The
pipeline `image::load_from_memory` followed by `DynamicImage::to_rgba8`
is the external `image` crate; it is taken as an arbitrary parameter
`load` from byte sequences to optional RGBA8 buffers, `none` modelling a
`load_from_memory` error (`to_rgba8` itself is total). -/
def b64_to_img_data (load : List Nat → Option RgbaImage) (content : String) : B64Result :=
  match STANDARD.decode content with
  | none => B64Result.panicDecode
  | some image_bytes =>
    match load image_bytes with
    | none => B64Result.panicImage
    | some rgba => B64Result.ok ⟨rgba.width, rgba.height, rgba.data⟩

/-- The all-zero offset rule: a local time zone that coincides with UTC. -/
def utcOffsetZero : Int → Int := fun _ => 0

/-- An image loader that fails on every byte sequence. -/
def loadNone : List Nat → Option RgbaImage := fun _ => none

/-- An image loader that recognises the single byte `137` as a 1×1 image. -/
def loadTiny : List Nat → Option RgbaImage := fun bs =>
  if bs = [137] then some ⟨1, 1, [1, 2, 3, 4], by decide⟩ else none

theorem int_tdiv_nonpos (a b : Int) (ha : a ≤ 0) (hb : 0 ≤ b) : a.tdiv b ≤ 0 := by
  have h1 : 0 ≤ (-a).tdiv b := Int.tdiv_nonneg (by omega) hb
  have h2 : a.tdiv b = -((-a).tdiv b) := by rw [← Int.neg_tdiv, neg_neg]
  omega

theorem int_ediv_ediv (d a b : Int) (h : 0 ≤ d) (ha : 0 ≤ a) (hb : 0 ≤ b) :
    d / a / b = d / (a * b) := by
  obtain ⟨n, rfl⟩ := Int.eq_ofNat_of_zero_le h
  obtain ⟨x, rfl⟩ := Int.eq_ofNat_of_zero_le ha
  obtain ⟨y, rfl⟩ := Int.eq_ofNat_of_zero_le hb
  rw [← Int.ofNat_mul, ← Int.ofNat_ediv, ← Int.ofNat_ediv, ← Int.ofNat_ediv,
    Nat.div_div_eq_div_mul]

theorem numMinutes_eq_ediv (d : Int) (h : 0 ≤ d) : numMinutes d = d / 60000000000 := by
  unfold numMinutes numSeconds nsPerSecond
  rw [Int.tdiv_eq_ediv h (by norm_num),
    Int.tdiv_eq_ediv (Int.ediv_nonneg h (by norm_num)) (by norm_num),
    int_ediv_ediv d 1000000000 60 h (by norm_num) (by norm_num)]
  norm_num

theorem numDays_eq_ediv (d : Int) (h : 0 ≤ d) : numDays d = d / 86400000000000 := by
  unfold numDays numSeconds nsPerSecond
  rw [Int.tdiv_eq_ediv h (by norm_num),
    Int.tdiv_eq_ediv (Int.ediv_nonneg h (by norm_num)) (by norm_num),
    int_ediv_ediv d 1000000000 86400 h (by norm_num) (by norm_num)]
  norm_num

theorem numMinutes_nonpos (d : Int) (h : d ≤ 0) : numMinutes d ≤ 0 := by
  unfold numMinutes numSeconds
  exact int_tdiv_nonpos _ _ (int_tdiv_nonpos _ _ h (by norm_num [nsPerSecond])) (by norm_num)

/-- C5: for every timestamp `t` such that `now - t` is non-negative and
less than one minute at the first clock read, `humanize_time` returns
exactly the string "Just now", for any time zone and any second read. -/
theorem humanize_time_just_now_within_minute (off : Int → Int) (t n1 n2 : Int)
    (h0 : 0 ≤ n1 - t) (h1 : n1 - t < 60000000000) :
    humanize_time off t n1 n2 = "Just now" := by
  have hs0 : 0 ≤ numSeconds (n1 - t) := by
    unfold numSeconds
    exact Int.tdiv_nonneg h0 (by norm_num [nsPerSecond])
  have hs : numSeconds (n1 - t) < 60 := by
    unfold numSeconds nsPerSecond
    rw [Int.tdiv_eq_ediv h0 (by norm_num), Int.ediv_lt_iff_lt_mul (by norm_num)]
    omega
  have hm : numMinutes (n1 - t) = 0 := by
    unfold numMinutes
    rw [Int.tdiv_eq_ediv hs0 (by norm_num)]
    exact Int.ediv_eq_zero_of_lt hs0 hs
  unfold humanize_time
  rw [hm]
  norm_num

/-- C5 witness: five seconds of elapsed time yield "Just now". -/
theorem humanize_time_just_now_within_minute_witness :
    ((0:Int) ≤ 5000000000 - 0 ∧ (5000000000:Int) - 0 < 60000000000) ∧
    humanize_time utcOffsetZero 0 5000000000 0 = "Just now" :=
  ⟨⟨by decide, by decide⟩,
   humanize_time_just_now_within_minute utcOffsetZero 0 5000000000 0 (by decide) (by decide)⟩

/-- C10: for every timestamp strictly later than the first clock read
(a future timestamp), the signed whole-minute difference is at most zero,
so the first rule fires and `humanize_time` returns "Just now". -/
theorem humanize_time_future_is_just_now (off : Int → Int) (t n1 n2 : Int)
    (h : n1 < t) : humanize_time off t n1 n2 = "Just now" := by
  have hm : numMinutes (n1 - t) ≤ 0 := numMinutes_nonpos _ (by omega)
  unfold humanize_time
  rw [if_pos (show numMinutes (n1 - t) < 1 by omega)]

/-- C10 witness: a timestamp five nanoseconds in the future yields
"Just now". -/
theorem humanize_time_future_is_just_now_witness :
    ((0:Int) < 5) ∧ humanize_time utcOffsetZero 5 0 0 = "Just now" :=
  ⟨by decide, humanize_time_future_is_just_now utcOffsetZero 5 0 0 (by decide)⟩

/-- C6: for every timestamp with one minute ≤ `now - t` < sixty minutes at
the first clock read, `humanize_time` returns "N min ago" where N is the
floor of the elapsed whole minutes. -/
theorem humanize_time_min_ago (off : Int → Int) (t n1 n2 : Int)
    (h0 : 60000000000 ≤ n1 - t) (h1 : n1 - t < 3600000000000) :
    humanize_time off t n1 n2 =
      toString (Int.fdiv (n1 - t) 60000000000) ++ " min ago" := by
  have hd0 : (0:Int) ≤ n1 - t := by omega
  have hm : numMinutes (n1 - t) = (n1 - t) / 60000000000 := numMinutes_eq_ediv _ hd0
  have hge : 1 ≤ numMinutes (n1 - t) := by
    rw [hm, Int.le_ediv_iff_mul_le (by norm_num)]
    omega
  have hlt : numMinutes (n1 - t) < 60 := by
    rw [hm, Int.ediv_lt_iff_lt_mul (by norm_num)]
    omega
  have hfd : Int.fdiv (n1 - t) 60000000000 = (n1 - t) / 60000000000 := by
    rw [Int.fdiv_eq_ediv]
    norm_num
  unfold humanize_time
  rw [if_neg (by omega), if_pos hlt, hm, hfd]

/-- C6 witness: five elapsed minutes yield "5 min ago". -/
theorem humanize_time_min_ago_witness :
    ((60000000000:Int) ≤ 300000000000 - 0 ∧ (300000000000:Int) - 0 < 3600000000000) ∧
    humanize_time utcOffsetZero 0 300000000000 0 =
      toString (Int.fdiv (300000000000 - 0) 60000000000) ++ " min ago" :=
  ⟨⟨by decide, by decide⟩,
   humanize_time_min_ago utcOffsetZero 0 300000000000 0 (by decide) (by decide)⟩

/-- C7: for every timestamp with `now - t` at least sixty minutes at the
first clock read whose local calendar date equals the local calendar date
of the second clock read, `humanize_time` returns the timestamp's local
time on a 12-hour clock with zero-padded hour and uppercase AM/PM. -/
theorem humanize_time_same_day_clock (off : Int → Int) (t n1 n2 : Int)
    (h0 : 3600000000000 ≤ n1 - t)
    (hdate : dateNaive (localWallNanos off t) = dateNaive (localWallNanos off n2)) :
    humanize_time off t n1 n2 = format12Hour (localWallNanos off t) := by
  have hd0 : (0:Int) ≤ n1 - t := by omega
  have hm : numMinutes (n1 - t) = (n1 - t) / 60000000000 := numMinutes_eq_ediv _ hd0
  have hge : 60 ≤ numMinutes (n1 - t) := by
    rw [hm, Int.le_ediv_iff_mul_le (by norm_num)]
    omega
  unfold humanize_time
  rw [if_neg (by omega), if_neg (by omega), if_pos hdate]

/-- C7 witness: a timestamp at 14:05 local on the same local day as the
second read, one hour before the first read, yields "02:05 PM". -/
theorem humanize_time_same_day_clock_witness :
    ((3600000000000:Int) ≤ 54300000000000 - 50700000000000 ∧
      dateNaive (localWallNanos utcOffsetZero 50700000000000) =
        dateNaive (localWallNanos utcOffsetZero 54300000000000)) ∧
    humanize_time utcOffsetZero 50700000000000 54300000000000 54300000000000 =
      format12Hour (localWallNanos utcOffsetZero 50700000000000) ∧
    format12Hour (localWallNanos utcOffsetZero 50700000000000) = "02:05 PM" :=
  ⟨⟨by decide, by decide⟩,
   humanize_time_same_day_clock utcOffsetZero 50700000000000 54300000000000 54300000000000
     (by decide) (by decide), by decide⟩

/-- C8: for every timestamp with at least sixty elapsed minutes at the
first clock read whose local calendar date is neither the second read's
local date nor the day before it: if the raw elapsed UTC duration is
under seven days the result is the full weekday name of the timestamp's
local date, and otherwise it is the ISO "YYYY-MM-DD" of that local date. -/
theorem humanize_time_weekday_or_iso (off : Int → Int) (t n1 n2 : Int)
    (h0 : 3600000000000 ≤ n1 - t)
    (hd1 : dateNaive (localWallNanos off t) ≠ dateNaive (localWallNanos off n2))
    (hd2 : dateNaive (localWallNanos off t) ≠ dateNaive (localWallNanos off n2) - 1) :
    (n1 - t < 604800000000000 →
      humanize_time off t n1 n2 = weekdayName (dateNaive (localWallNanos off t))) ∧
    (604800000000000 ≤ n1 - t →
      humanize_time off t n1 n2 = isoDateString (dateNaive (localWallNanos off t))) := by
  have hd0 : (0:Int) ≤ n1 - t := by omega
  have hm : numMinutes (n1 - t) = (n1 - t) / 60000000000 := numMinutes_eq_ediv _ hd0
  have hge : 60 ≤ numMinutes (n1 - t) := by
    rw [hm, Int.le_ediv_iff_mul_le (by norm_num)]
    omega
  have hdays : numDays (n1 - t) = (n1 - t) / 86400000000000 := numDays_eq_ediv _ hd0
  constructor
  · intro hlt
    have h7 : numDays (n1 - t) < 7 := by
      rw [hdays, Int.ediv_lt_iff_lt_mul (by norm_num)]
      omega
    unfold humanize_time
    rw [if_neg (by omega), if_neg (by omega), if_neg hd1, if_neg hd2, if_pos h7]
  · intro hge7
    have h7 : ¬ numDays (n1 - t) < 7 := by
      rw [hdays]
      push_neg
      rw [Int.le_ediv_iff_mul_le (by norm_num)]
      omega
    unfold humanize_time
    rw [if_neg (by omega), if_neg (by omega), if_neg hd1, if_neg hd2, if_neg h7]

/-- C8 witness: three days of elapsed time (several midnight crossings)
yield the weekday name of the timestamp's local date, and ten days yield
its ISO date. -/
theorem humanize_time_weekday_or_iso_witness :
    humanize_time utcOffsetZero 0 259200000000000 259200000000000 =
      weekdayName (dateNaive (localWallNanos utcOffsetZero 0)) ∧
    weekdayName (dateNaive (localWallNanos utcOffsetZero 0)) = "Thursday" ∧
    humanize_time utcOffsetZero 0 864000000000000 864000000000000 =
      isoDateString (dateNaive (localWallNanos utcOffsetZero 0)) ∧
    isoDateString (dateNaive (localWallNanos utcOffsetZero 0)) = "1970-01-01" :=
  ⟨(humanize_time_weekday_or_iso utcOffsetZero 0 259200000000000 259200000000000
      (by decide) (by decide) (by decide)).1 (by decide),
   by decide,
   (humanize_time_weekday_or_iso utcOffsetZero 0 864000000000000 864000000000000
      (by decide) (by decide) (by decide)).2 (by decide),
   by decide⟩

/-- C3 counterexample: with the timestamp at the epoch and the first read
two hours later, a second clock read two days after the epoch changes the
result from the same-day clock string to a weekday name, so the result is
not a function of the timestamp and the single first read. -/
theorem humanize_time_second_clock_read_changes_result :
    humanize_time utcOffsetZero 0 7200000000000 172800000000000 ≠
      humanize_time utcOffsetZero 0 7200000000000 7200000000000 := by decide

/-- C3 amended: the clock is read twice, and the result depends on the
second read, but only through the local calendar date of that read: any
two second reads with the same local date give the same result. -/
theorem humanize_time_second_read_only_through_local_date (off : Int → Int)
    (t n1 n2 n2' : Int)
    (h : dateNaive (localWallNanos off n2) = dateNaive (localWallNanos off n2')) :
    humanize_time off t n1 n2 = humanize_time off t n1 n2' := by
  unfold humanize_time
  rw [h]

/-- C3 amended witness: two second reads within the same local day give
identical results. -/
theorem humanize_time_second_read_only_through_local_date_witness :
    dateNaive (localWallNanos utcOffsetZero 0) =
      dateNaive (localWallNanos utcOffsetZero 1000) ∧
    humanize_time utcOffsetZero 0 0 0 = humanize_time utcOffsetZero 0 0 1000 :=
  ⟨by decide,
   humanize_time_second_read_only_through_local_date utcOffsetZero 0 0 0 1000 (by decide)⟩

/-- C1 counterexample: on the invalid base64 input "%", `b64_to_img_data`
ends in the decode-`unwrap` panic, an unrecoverable abort; no typed
`DecodeError` value is returned to the caller. -/
theorem b64_to_img_data_aborts_on_invalid_base64 :
    b64_to_img_data loadNone "%" = B64Result.panicDecode := by decide

/-- C1 amended: for every input that is not valid standard base64 the
function panics at the decode `unwrap` (a base64 `DecodeError` aborts the
process), and for every valid base64 input whose bytes the image loader
rejects it panics at the image `unwrap`; neither failure is returned to
the caller as a value. -/
theorem b64_to_img_data_panic_on_failure (load : List Nat → Option RgbaImage)
    (s : String) :
    (STANDARD.decode s = none → b64_to_img_data load s = B64Result.panicDecode) ∧
    (∀ bs, STANDARD.decode s = some bs → load bs = none →
      b64_to_img_data load s = B64Result.panicImage) := by
  constructor
  · intro h
    unfold b64_to_img_data
    rw [h]
  · intro bs h1 h2
    unfold b64_to_img_data
    simp only [h1, h2]

/-- C1 amended witness: "%" is rejected by the decoder and panics there;
"iQ==" decodes to the byte 137, which the always-failing loader rejects,
panicking at the image step. -/
theorem b64_to_img_data_panic_on_failure_witness :
    (STANDARD.decode "%" = none ∧
      b64_to_img_data loadNone "%" = B64Result.panicDecode) ∧
    (STANDARD.decode "iQ==" = some [137] ∧ loadNone [137] = none ∧
      b64_to_img_data loadNone "iQ==" = B64Result.panicImage) :=
  ⟨⟨by decide, (b64_to_img_data_panic_on_failure loadNone "%").1 (by decide)⟩,
   ⟨by decide, rfl,
    (b64_to_img_data_panic_on_failure loadNone "iQ==").2 [137] (by decide) rfl⟩⟩

/-- C2: on every input where base64 decoding or image parsing fails,
`b64_to_img_data` ends in a panic and returns no value: the outcome is
one of the two panics, and it is never `ok` with any buffer, partial or
otherwise. -/
theorem b64_to_img_data_failure_returns_nothing (load : List Nat → Option RgbaImage)
    (s : String)
    (h : STANDARD.decode s = none ∨ ∃ bs, STANDARD.decode s = some bs ∧ load bs = none) :
    (b64_to_img_data load s = B64Result.panicDecode ∨
      b64_to_img_data load s = B64Result.panicImage) ∧
    ∀ d : ImageData, b64_to_img_data load s ≠ B64Result.ok d := by
  have hres : b64_to_img_data load s = B64Result.panicDecode ∨
      b64_to_img_data load s = B64Result.panicImage := by
    rcases h with h | ⟨bs, h1, h2⟩
    · left
      unfold b64_to_img_data
      rw [h]
    · right
      unfold b64_to_img_data
      simp only [h1, h2]
  refine ⟨hres, ?_⟩
  intro d hok
  rcases hres with h' | h' <;> rw [hok] at h' <;> exact B64Result.noConfusion h'

/-- C2 witness: on the invalid input "%" the function panics at the
decode step and in particular returns no `ok` buffer. -/
theorem b64_to_img_data_failure_returns_nothing_witness :
    STANDARD.decode "%" = none ∧
    (b64_to_img_data loadNone "%" = B64Result.panicDecode ∨
      b64_to_img_data loadNone "%" = B64Result.panicImage) ∧
    b64_to_img_data loadNone "%" ≠ B64Result.ok ⟨1, 1, [1, 2, 3, 4]⟩ :=
  ⟨by decide,
   (b64_to_img_data_failure_returns_nothing loadNone "%" (Or.inl (by decide))).1,
   (b64_to_img_data_failure_returns_nothing loadNone "%" (Or.inl (by decide))).2
     ⟨1, 1, [1, 2, 3, 4]⟩⟩

/-- C4: whenever `b64_to_img_data` returns a value, its byte sequence has
length `width * height * 4` and its dimensions and bytes are exactly
those of the RGBA8 image obtained from the decoded base64 bytes. -/
theorem b64_to_img_data_ok_shape (load : List Nat → Option RgbaImage) (s : String)
    (d : ImageData) (h : b64_to_img_data load s = B64Result.ok d) :
    d.bytes.length = d.width * d.height * 4 ∧
    ∃ bs img, STANDARD.decode s = some bs ∧ load bs = some img ∧
      d.width = img.width ∧ d.height = img.height ∧ d.bytes = img.data := by
  unfold b64_to_img_data at h
  cases hdec : STANDARD.decode s with
  | none =>
    simp only [hdec] at h
    exact B64Result.noConfusion h
  | some bs =>
    simp only [hdec] at h
    cases hload : load bs with
    | none =>
      simp only [hload] at h
      exact B64Result.noConfusion h
    | some img =>
      simp only [hload] at h
      injection h with h'
      subst h'
      exact ⟨img.data_length, bs, img, rfl, hload, rfl, rfl, rfl⟩

/-- C4 witness: "iQ==" with the loader recognising byte 137 as a 1×1
image returns a buffer of four bytes, matching `1 * 1 * 4`. -/
theorem b64_to_img_data_ok_shape_witness :
    b64_to_img_data loadTiny "iQ==" = B64Result.ok ⟨1, 1, [1, 2, 3, 4]⟩ ∧
    (ImageData.mk 1 1 [1, 2, 3, 4]).bytes.length =
      (ImageData.mk 1 1 [1, 2, 3, 4]).width * (ImageData.mk 1 1 [1, 2, 3, 4]).height * 4 :=
  ⟨by decide,
   (b64_to_img_data_ok_shape loadTiny "iQ==" ⟨1, 1, [1, 2, 3, 4]⟩ (by decide)).1⟩

theorem isStdB64Char_eq (c : Char) : isStdB64Char c = (b64Index c).isSome := by
  unfold isStdB64Char b64Index
  split_ifs <;> simp_all

theorem decodeLastChunk_isSome (a b c d : Char) :
    (decodeLastChunk a b c d).isSome = validLastChunk a b c d := by
  unfold decodeLastChunk validLastChunk
  simp only [isStdB64Char_eq]
  cases h1 : b64Index a <;> cases h2 : b64Index b <;> cases h3 : b64Index c <;>
    cases h4 : b64Index d <;> split_ifs <;> simp_all <;> split_ifs <;> simp_all

theorem decodeChunks_isSome : ∀ l : List Char, (decodeChunks l).isSome = validStdBase64 l
  | [] => rfl
  | [_] => rfl
  | [_, _] => rfl
  | [_, _, _] => rfl
  | [a, b, c, d] => by
    unfold decodeChunks validStdBase64
    simp only [List.isEmpty_nil, if_true]
    exact decodeLastChunk_isSome a b c d
  | a :: b :: c :: d :: e :: rest => by
    have IH := decodeChunks_isSome (e :: rest)
    unfold decodeChunks validStdBase64
    simp only [List.isEmpty_cons, Bool.false_eq_true, if_false, isStdB64Char_eq]
    rw [← IH]
    cases h1 : b64Index a <;> cases h2 : b64Index b <;> cases h3 : b64Index c <;>
      cases h4 : b64Index d <;> cases h5 : decodeChunks (e :: rest) <;> simp_all

theorem validLastChunk_chars (a b c d : Char) (h : validLastChunk a b c d = true) :
    isStdB64Char a = true ∧ isStdB64Char b = true ∧
    (isStdB64Char c = true ∨ c = '=') ∧ (isStdB64Char d = true ∨ d = '=') := by
  unfold validLastChunk at h
  split_ifs at h <;> simp_all

theorem validStdBase64_mem : ∀ l : List Char, validStdBase64 l = true →
    ∀ x ∈ l, isStdB64Char x = true ∨ x = '='
  | [] => by
    intro _ x hx
    simp at hx
  | [_] => by
    intro h
    simp [validStdBase64] at h
  | [_, _] => by
    intro h
    simp [validStdBase64] at h
  | [_, _, _] => by
    intro h
    simp [validStdBase64] at h
  | [a, b, c, d] => by
    intro h x hx
    unfold validStdBase64 at h
    simp only [List.isEmpty_nil, if_true] at h
    have hc := validLastChunk_chars a b c d h
    simp only [List.mem_cons, List.not_mem_nil, or_false] at hx
    rcases hx with rfl | rfl | rfl | rfl
    · exact Or.inl hc.1
    · exact Or.inl hc.2.1
    · exact hc.2.2.1
    · exact hc.2.2.2
  | a :: b :: c :: d :: e :: rest => by
    intro h x hx
    unfold validStdBase64 at h
    simp only [List.isEmpty_cons, Bool.false_eq_true, if_false, Bool.and_eq_true] at h
    obtain ⟨⟨⟨⟨ha, hb⟩, hc⟩, hd⟩, hrest⟩ := h
    simp only [List.mem_cons] at hx
    rcases hx with rfl | rfl | rfl | rfl | hx
    · exact Or.inl ha
    · exact Or.inl hb
    · exact Or.inl hc
    · exact Or.inl hd
    · exact validStdBase64_mem (e :: rest) hrest x (by simpa using hx)

/-- C9: the decoder used by `b64_to_img_data` accepts a string exactly
when it is valid under the standard RFC 4648 base64 alphabet (with `+`,
`/` and `=` padding, zero trailing bits), and any string containing a
URL-safe-only character `-` or `_` is rejected. -/
theorem b64_decode_standard_alphabet (s : String) :
    ((STANDARD.decode s).isSome = validStdBase64 s.data) ∧
    (∀ c ∈ s.data, (c = '-' ∨ c = '_') → STANDARD.decode s = none) := by
  refine ⟨decodeChunks_isSome s.data, ?_⟩
  intro c hc hcc
  have hnotstd : ¬ (isStdB64Char c = true ∨ c = '=') := by
    rcases hcc with rfl | rfl <;> decide
  cases hval : validStdBase64 s.data with
  | false =>
    have h2 : (decodeChunks s.data).isSome = false := by
      rw [decodeChunks_isSome, hval]
    unfold STANDARD.decode
    cases hd : decodeChunks s.data with
    | none => rfl
    | some v =>
      rw [hd] at h2
      simp at h2
  | true => exact absurd (validStdBase64_mem s.data hval c hc) hnotstd

/-- C9 witness: the string "ab_=" is valid only under the URL-safe
alphabet, and the standard engine rejects it. -/
theorem b64_decode_standard_alphabet_witness :
    ('_' ∈ ("ab_=" : String).data) ∧ STANDARD.decode "ab_=" = none :=
  ⟨by decide, (b64_decode_standard_alphabet "ab_=").2 '_' (by decide) (Or.inr rfl)⟩
